import Mathlib

/-!
# config-drift-realtimeconfigmonitor — verification of the drift detection engine

Shallow embedding of `src/main.py`. The program watches a set of configuration
files, and on every modification event compares the current document with its
baseline using the `deepdiff` library (`DeepDiff(baseline, current,
ignore_order=True)`, all other options left at their defaults), logging the
result.

Documents are the values produced by `yaml.safe_load`: nested maps, sequences
and scalars. Python dictionaries have unique keys, which we track with an
explicit well-formedness predicate `Yaml.wf`.
-/

namespace ConfigDrift

/-- A generic semi-structured document value, as produced by `yaml.safe_load`
on a configuration file: `None`, booleans, integers, strings, lists and
string-keyed dictionaries (config-file mappings use string keys). A Python
dict is represented as its association list; uniqueness of keys is the
separate predicate `Yaml.wf`. -/
inductive Yaml where
  | null : Yaml
  | bool (b : Bool) : Yaml
  | int (n : Int) : Yaml
  | str (s : String) : Yaml
  | seq (xs : List Yaml) : Yaml
  | map (entries : List (String × Yaml)) : Yaml

/-- The runtime type tag of a value, as `deepdiff` distinguishes types
(`bool` is distinguished from `int`, as `deepdiff` does by default). -/
def Yaml.typeTag : Yaml → Nat
  | .null => 0
  | .bool _ => 1
  | .int _ => 2
  | .str _ => 3
  | .seq _ => 4
  | .map _ => 5

mutual

/-- Deep equality as `deepdiff`'s `DeepDiff(a, b, ignore_order=True)` (with
`report_repetition` left at its default `False`) decides emptiness of the
diff: scalars are equal when type and value agree; dictionaries are equal
when every entry of each side has a matching key on the other side with a
deeply-equal value; sequences are compared as unordered collections in
which multiplicity is ignored — each element of either side must have a
deeply-equal element on the other side. -/
def dEq : Yaml → Yaml → Bool
  | .null, .null => true
  | .bool a, .bool b => a == b
  | .int a, .int b => a == b
  | .str a, .str b => a == b
  | .seq xs, .seq ys => dSub xs ys && dSub ys xs
  | .map es, .map fs => dSubMap es fs && dSubMap fs es
  | _, _ => false
termination_by a b => sizeOf a + sizeOf b

/-- Every element of `xs` has a `dEq`-equal element in `ys`. -/
def dSub : List Yaml → List Yaml → Bool
  | [], _ => true
  | x :: xs, ys => dMem x ys && dSub xs ys
termination_by xs ys => sizeOf xs + sizeOf ys

/-- `x` has a `dEq`-equal element in `ys`. -/
def dMem : Yaml → List Yaml → Bool
  | _, [] => false
  | x, y :: ys => dEq x y || dMem x ys
termination_by x ys => sizeOf x + sizeOf ys

/-- Every entry of `es` has an entry in `fs` with the same key and a
`dEq`-equal value. -/
def dSubMap : List (String × Yaml) → List (String × Yaml) → Bool
  | [], _ => true
  | (k, v) :: es, fs => dMemMap k v fs && dSubMap es fs
termination_by es fs => sizeOf es + sizeOf fs

/-- `fs` contains an entry with key `k` and a value `dEq`-equal to `v`. -/
def dMemMap : String → Yaml → List (String × Yaml) → Bool
  | _, _, [] => false
  | k, v, (k', v') :: fs => (k == k' && dEq v v') || dMemMap k v fs
termination_by _ v fs => sizeOf v + sizeOf fs

end

/-- One step of a path into a document: a dictionary key or a sequence index
(`deepdiff` renders these as `root['key']` / `root[i]`). -/
inductive PathSeg where
  | key (k : String) : PathSeg
  | idx (i : Nat) : PathSeg
deriving DecidableEq

/-- The kind of a single reported difference, following `deepdiff`'s report
categories for the options used by the program. -/
inductive DiffKind where
  | typeChanged : DiffKind
  | valuesChanged : DiffKind
  | dictItemAdded : DiffKind
  | dictItemRemoved : DiffKind
  | iterableItemAdded : DiffKind
  | iterableItemRemoved : DiffKind
deriving DecidableEq

/-- A single structural difference reported by the comparison, at a path
into the document, with the old (baseline-side) and new (current-side)
values where applicable. -/
structure DiffEntry where
  path : List PathSeg
  kind : DiffKind
  oldValue : Option Yaml
  newValue : Option Yaml

/-- Is `k` a key of the association list (Python `key in dict`)? -/
def hasKey (k : String) (es : List (String × Yaml)) : Bool :=
  es.any (fun e => e.1 == k)

/-- Entries `deepdiff` reports for two sequences compared with
`ignore_order=True` (default `report_repetition=False`): an element of the
baseline sequence with no deeply-equal element in the current one is
reported as removed, and conversely as added; matched elements produce
nothing, so order and multiplicity never produce a report. (`deepdiff`
additionally pairs up leftover items to report some of them as
`values_changed` rather than an add/remove pair; we keep the add/remove
presentation, which reports a difference exactly when `deepdiff` does.) -/
def ddSeq (p : List PathSeg) (xs ys : List Yaml) : List DiffEntry :=
  ((xs.enum.filter (fun e => !(dMem e.2 ys))).map
      (fun e => ⟨p ++ [.idx e.1], .iterableItemRemoved, some e.2, none⟩))
    ++ ((ys.enum.filter (fun e => !(xs.any (fun x => dEq x e.2)))).map
      (fun e => ⟨p ++ [.idx e.1], .iterableItemAdded, none, some e.2⟩))

/-- Entries for the dictionary keys present only in the current document:
`dictionary_item_added`. -/
def ddMapAdded (p : List PathSeg) (es fs : List (String × Yaml)) : List DiffEntry :=
  (fs.filter (fun e => !(hasKey e.1 es))).map
    (fun e => ⟨p ++ [.key e.1], .dictItemAdded, none, some e.2⟩)

/-- Are two scalars of the same runtime type equal? (Only consulted when the
type tags agree and the values are not containers.) -/
def scalarEq : Yaml → Yaml → Bool
  | .null, .null => true
  | .bool a, .bool b => a == b
  | .int a, .int b => a == b
  | .str a, .str b => a == b
  | _, _ => false

mutual

/-- The structural diff computed at `src/main.py:76` by
`DeepDiff(baseline, current, ignore_order=True)` (all other options at
their defaults), at path `p`; first argument is the baseline document,
second the current one. Values of different runtime types give one
`type_changes` entry; unequal scalars of the same type give one
`values_changed` entry; dictionaries report added and removed keys and
recurse on common keys; sequences are compared unordered (`ddSeq`). The
drift decision at `src/main.py:78` is `if diff:`, i.e. whether this list
is nonempty. -/
def ddiff (p : List PathSeg) : Yaml → Yaml → List DiffEntry
  | .map es, .map fs => ddMapCommon p es fs ++ ddMapAdded p es fs
  | .seq xs, .seq ys => ddSeq p xs ys
  | a, b =>
    if a.typeTag = b.typeTag then
      if scalarEq a b then [] else [⟨p, .valuesChanged, some a, some b⟩]
    else [⟨p, .typeChanged, some a, some b⟩]
termination_by a b => sizeOf a + sizeOf b

/-- Walk the baseline dictionary's entries: each key also present in the
current dictionary recurses on the two values; a key absent from the
current dictionary is reported as `dictionary_item_removed`. -/
def ddMapCommon (p : List PathSeg) : List (String × Yaml) → List (String × Yaml) → List DiffEntry
  | [], _ => []
  | (k, v) :: es, fs => ddMapFind p k v fs ++ ddMapCommon p es fs
termination_by es fs => sizeOf es + sizeOf fs

/-- Look up key `k` (value `v` on the baseline side) in the current
dictionary's entries: on a hit, diff the two values; if the key is absent,
report the baseline entry as removed. -/
def ddMapFind (p : List PathSeg) (k : String) (v : Yaml) : List (String × Yaml) → List DiffEntry
  | [] => [⟨p ++ [.key k], .dictItemRemoved, some v, none⟩]
  | (k', v') :: fs =>
    if k = k' then ddiff (p ++ [.key k]) v v' else ddMapFind p k v fs
termination_by fs => sizeOf v + sizeOf fs

end

/-- No duplicate keys in an association list (the invariant of a Python
dictionary). -/
def keysNodup : List (String × Yaml) → Bool
  | [] => true
  | (k, _) :: es => !(hasKey k es) && keysNodup es

mutual

/-- Well-formedness of a document: every dictionary occurring in it has
pairwise-distinct keys. Every value `yaml.safe_load` returns satisfies
this, because Python dictionaries cannot hold a key twice. -/
def Yaml.wf : Yaml → Bool
  | .null => true
  | .bool _ => true
  | .int _ => true
  | .str _ => true
  | .seq xs => wfList xs
  | .map es => keysNodup es && wfEntries es
termination_by a => sizeOf a

/-- All documents in the list are well-formed. -/
def wfList : List Yaml → Bool
  | [] => true
  | x :: xs => x.wf && wfList xs
termination_by xs => sizeOf xs

/-- All values of the entries are well-formed. -/
def wfEntries : List (String × Yaml) → Bool
  | [] => true
  | (_, v) :: es => v.wf && wfEntries es
termination_by es => sizeOf es

end

/-! ## The monitor: `ConfigChangeHandler`, startup validation and `main`

File access and parsing (`open` + `yaml.safe_load`, `src/main.py:71-74`) are
modelled as an abstract filesystem capability: each path either loads to a
parsed document, or raises an I/O error, or raises a parse error. An empty
file is a load that succeeds with `Yaml.null`, because `yaml.safe_load` on
an empty stream returns `None`.
-/

/-- A Python exception that can be raised inside the `try` block of
`check_config_drift` (`src/main.py:63-86`): a `KeyError` from the
`config_files` lookup, an `IOError`/`OSError` from opening or reading a
file, or a `yaml.YAMLError` from parsing. -/
inductive PyErr where
  | keyError : PyErr
  | ioError : PyErr
  | parseError : PyErr
deriving DecidableEq

/-- Outcome of `yaml.safe_load(open(path))` for one path. -/
inductive LoadResult where
  | ok (v : Yaml) : LoadResult
  | ioError : LoadResult
  | parseError : LoadResult

/-- The filesystem as the handler observes it during one check:
`os.path.exists`, and the combined open-and-parse outcome per path. -/
structure FS where
  pathExists : String → Bool
  load : String → LoadResult

/-- `os.path.join(baseline_dir, name + ".yaml")` as used at
`src/main.py:65` (the second argument is a relative file name, so the join
just inserts a separator). -/
def baselinePath (baselineDir name : String) : String :=
  baselineDir ++ "/" ++ name ++ ".yaml"

/-- One log record emitted by `check_config_drift`, with its payload:
the baseline-missing error (`src/main.py:68`), the drift warning carrying
the computed diff (`src/main.py:79-81`), the no-drift info line
(`src/main.py:86`), or the catch-all error for an exception raised inside
the `try` block (`src/main.py:88-92`). -/
inductive LogEvent where
  | errorBaselineMissing (path : String) : LogEvent
  | warnDrift (name filepath : String) (diff : List DiffEntry) : LogEvent
  | infoNoDrift (name : String) : LogEvent
  | errorException (filepath : String) (e : PyErr) : LogEvent

/-- Python `logging` severity levels used by the handler. -/
inductive Severity where
  | info : Severity
  | warning : Severity
  | error : Severity
deriving DecidableEq

/-- The severity at which each log record is emitted (`logger.error`,
`logger.warning`, `logger.info` in `check_config_drift`). -/
def LogEvent.severity : LogEvent → Severity
  | .errorBaselineMissing _ => .error
  | .warnDrift _ _ _ => .warning
  | .infoNoDrift _ => .info
  | .errorException _ _ => .error

/-- First-match lookup in an association list: Python's
`self.config_files[filepath]` (raises `KeyError` when absent, hence the
`Option`). -/
def lookupName (k : String) : List (String × String) → Option String
  | [] => none
  | (k', n) :: rest => if k' = k then some n else lookupName k rest

/-- The body of the `try` block of `check_config_drift`
(`src/main.py:63-86`): look up the logical name, bail out early with an
error log if the baseline file does not exist, load and parse the current
then the baseline document, diff them, and log a warning when the diff is
nonempty, an info line otherwise. A raised exception is the `Except.error`
case. -/
def checkBody (configFiles : List (String × String)) (baselineDir : String)
    (fs : FS) (filepath : String) : Except PyErr LogEvent :=
  match lookupName filepath configFiles with
  | none => .error .keyError
  | some name =>
    let bpath := baselinePath baselineDir name
    if !(fs.pathExists bpath) then .ok (.errorBaselineMissing bpath)
    else
      match fs.load filepath with
      | .ioError => .error .ioError
      | .parseError => .error .parseError
      | .ok currentConfig =>
        match fs.load bpath with
        | .ioError => .error .ioError
        | .parseError => .error .parseError
        | .ok baselineConfig =>
          let diff := ddiff [] baselineConfig currentConfig
          if diff.isEmpty then .ok (.infoNoDrift name)
          else .ok (.warnDrift name filepath diff)

/-- `ConfigChangeHandler.check_config_drift` (`src/main.py:56-92`): the
`try` body wrapped in the `except Exception` handler, which logs the
exception at error severity and returns; the method therefore always
returns normally with exactly one log record. -/
def check_config_drift (configFiles : List (String × String)) (baselineDir : String)
    (fs : FS) (filepath : String) : LogEvent :=
  match checkBody configFiles baselineDir fs filepath with
  | .ok ev => ev
  | .error e => .errorException filepath e

/-- A raw filesystem notification as delivered by the watch capability
(`watchdog`): whether it concerns a directory, and the reported source
path. -/
structure FsEvent where
  is_directory : Bool
  src_path : String

/-- Keys of the tracked-config dictionary (`filepath in self.config_files`
tests membership among the keys, by string equality). -/
def hasConfigKey (k : String) (cfgs : List (String × String)) : Bool :=
  cfgs.any (fun e => e.1 == k)

/-- `ConfigChangeHandler.on_modified` (`src/main.py:43-54`): directory
events are ignored, events whose source path is a key of the tracked
dictionary trigger one drift check, and all other events are ignored.
`none` means the handler returned without checking anything. -/
def on_modified (configFiles : List (String × String)) (baselineDir : String)
    (fs : FS) (e : FsEvent) : Option LogEvent :=
  if e.is_directory then none
  else if hasConfigKey e.src_path configFiles then
    some (check_config_drift configFiles baselineDir fs e.src_path)
  else none

/-- The observer loop: the sequence of notifications delivered while the
process runs, each handed to `on_modified`, producing the sequence of
emitted log records (one per performed check, in order). -/
def run_events (configFiles : List (String × String)) (baselineDir : String)
    (fs : FS) (events : List FsEvent) : List LogEvent :=
  events.filterMap (on_modified configFiles baselineDir fs)

/-- The cause carried by the `ValueError` raised by `validate_input`
(`src/main.py:140-152`). -/
inductive ValidationError where
  | lengthMismatch : ValidationError
  | baselineDirMissing (dir : String) : ValidationError
  | configFileMissing (file : String) : ValidationError
deriving DecidableEq

/-- `validate_input` (`src/main.py:140-152`): raises `ValueError` when the
file and name lists differ in length, when the baseline directory is not a
directory, or at the first tracked file that is not a file; otherwise
returns normally. `isdir`/`isfile` are the startup filesystem predicates
(`os.path.isdir`, `os.path.isfile`). -/
def validate_input (configFilesArg configNamesArg : List String) (baselineDir : String)
    (isdir isfile : String → Bool) : Except ValidationError Unit :=
  if configFilesArg.length ≠ configNamesArg.length then .error .lengthMismatch
  else if !(isdir baselineDir) then .error (.baselineDirMissing baselineDir)
  else
    match configFilesArg.find? (fun f => !(isfile f)) with
    | some f => .error (.configFileMissing f)
    | none => .ok ()

/-- Insert while preserving first-occurrence order, skipping elements
already present: the `watched_directories` set together with the `if
directory not in watched_directories` guard (`src/main.py:177-182`). -/
def dedupDirs (ds : List String) : List String :=
  ds.foldl (fun acc d => if acc.contains d then acc else acc ++ [d]) []

/-- The observable outcome of `main` (`src/main.py:155-195`). -/
inductive MainResult where
  /-- `validate_input` raised: the cause is logged and the process calls
  `sys.exit(1)` before any observer is scheduled (`src/main.py:163-167`). -/
  | exitedEarly (code : Nat) (cause : ValidationError) : MainResult
  /-- Validation passed: the handler is installed over the de-duplicated
  parent directories, the delivered notifications are processed until the
  interrupt, and the process shuts the observer down and exits normally
  (status 0). -/
  | ran (watchedDirs : List String) (logs : List LogEvent) (exitCode : Nat) : MainResult

/-- `main` (`src/main.py:155-195`), parametrised by the startup filesystem
predicates, the path functions `os.path.abspath`/`os.path.dirname`, the
filesystem seen by the checks, and the finite sequence of notifications
delivered before the `KeyboardInterrupt`. The tracked dictionary is
`dict(zip(config_files, config_names))` (`src/main.py:169`); each watched
directory is `dirname(abspath(f))` (`src/main.py:179`); the idle loop only
sleeps and the interrupt leads to a graceful stop with exit status 0. -/
def main (configFilesArg configNamesArg : List String) (baselineDir : String)
    (isdir isfile : String → Bool) (abspath dirname : String → String)
    (fs : FS) (events : List FsEvent) : MainResult :=
  match validate_input configFilesArg configNamesArg baselineDir isdir isfile with
  | .error e => .exitedEarly 1 e
  | .ok _ =>
    let cfgs := configFilesArg.zip configNamesArg
    let dirs := dedupDirs (configFilesArg.map (fun f => dirname (abspath f)))
    .ran dirs (run_events cfgs baselineDir fs events) 0

/-- The spec's per-config `DriftState`, as realised by the log record each
check emits: `InSync` for the no-drift info line, `Drifted(diff)` for the
drift warning, `Error(reason)` for the two error records. -/
inductive ErrReason where
  | baselineMissing : ErrReason
  | exception (e : PyErr) : ErrReason
deriving DecidableEq

/-- The spec's `DriftState` variant. -/
inductive DriftState where
  | inSync : DriftState
  | drifted (diff : List DiffEntry) : DriftState
  | errorState (r : ErrReason) : DriftState

/-- The `DriftState` a completed check leaves the config in, read off the
log record it emitted. -/
def stateOf : LogEvent → DriftState
  | .errorBaselineMissing _ => .errorState .baselineMissing
  | .warnDrift _ _ d => .drifted d
  | .infoNoDrift _ => .inSync
  | .errorException _ e => .errorState (.exception e)

/-- First-match lookup of a key's value in an association list (what
`ddMapFind` searches for). -/
def lookupVal (k : String) : List (String × Yaml) → Option Yaml
  | [] => none
  | (k', v') :: fs => if k = k' then some v' else lookupVal k fs

/-- `yaml.safe_load` applied to an empty file: PyYAML returns `None` for an
empty stream, so the load succeeds with the null document (it does not
raise, and it does not produce an empty mapping). -/
def loadEmptyFile : LoadResult := .ok .null

/-- The diff payload a log record carries (empty for records that carry
none): the drift warning renders the full `DeepDiff` result into the
message (`src/main.py:80`). -/
def LogEvent.diffOf : LogEvent → List DiffEntry
  | .warnDrift _ _ d => d
  | _ => []

/-! ## Helper lemmas -/

theorem dMem_eq_any (x : Yaml) (ys : List Yaml) :
    dMem x ys = ys.any (fun y => dEq x y) := by
  induction ys with
  | nil => simp [dMem]
  | cons y ys ih => simp [dMem, ih]

theorem dSub_eq_all (xs ys : List Yaml) :
    dSub xs ys = xs.all (fun x => dMem x ys) := by
  induction xs with
  | nil => simp [dSub]
  | cons x xs ih => simp [dSub, ih]

theorem dMemMap_eq_any (k : String) (v : Yaml) (fs : List (String × Yaml)) :
    dMemMap k v fs = fs.any (fun e => k == e.1 && dEq v e.2) := by
  induction fs with
  | nil => simp [dMemMap]
  | cons f fs ih =>
    obtain ⟨k', v'⟩ := f
    simp [dMemMap, ih]

theorem dSubMap_eq_all (es fs : List (String × Yaml)) :
    dSubMap es fs = es.all (fun e => dMemMap e.1 e.2 fs) := by
  induction es with
  | nil => simp [dSubMap]
  | cons e es ih =>
    obtain ⟨k, v⟩ := e
    simp [dSubMap, ih]

theorem sizeOf_snd_lt_of_mem {k : String} {v : Yaml} {es : List (String × Yaml)}
    (h : (k, v) ∈ es) : sizeOf v < sizeOf es := by
  have h1 := List.sizeOf_lt_of_mem h
  simp only [Prod.mk.sizeOf_spec] at h1
  omega

theorem dEq_refl : ∀ a : Yaml, dEq a a = true
  | .null => by simp [dEq]
  | .bool b => by simp [dEq]
  | .int n => by simp [dEq]
  | .str s => by simp [dEq]
  | .seq xs => by
    have h : dSub xs xs = true := by
      rw [dSub_eq_all]
      simp only [List.all_eq_true]
      intro x hx
      rw [dMem_eq_any]
      simp only [List.any_eq_true]
      exact ⟨x, hx, dEq_refl x⟩
    simp [dEq, h]
  | .map es => by
    have h : dSubMap es es = true := by
      rw [dSubMap_eq_all]
      simp only [List.all_eq_true]
      intro e he
      obtain ⟨k, v⟩ := e
      rw [dMemMap_eq_any]
      simp only [List.any_eq_true]
      exact ⟨(k, v), he, by simp [dEq_refl v]⟩
    simp [dEq, h]
termination_by a => sizeOf a
decreasing_by
  · have := List.sizeOf_lt_of_mem hx
    simp only [Yaml.seq.sizeOf_spec]
    omega
  · have := sizeOf_snd_lt_of_mem he
    simp only [Yaml.map.sizeOf_spec]
    omega

theorem hasKey_of_mem {k : String} {v : Yaml} {es : List (String × Yaml)}
    (h : (k, v) ∈ es) : hasKey k es = true := by
  simp only [hasKey, List.any_eq_true]
  exact ⟨(k, v), h, by simp⟩

theorem keysNodup_lookup {es : List (String × Yaml)} {k : String} {v : Yaml}
    (hn : keysNodup es = true) (h : (k, v) ∈ es) : lookupVal k es = some v := by
  induction es with
  | nil => simp at h
  | cons e es ih =>
    obtain ⟨k1, v1⟩ := e
    simp only [keysNodup, Bool.and_eq_true, Bool.not_eq_true'] at hn
    rcases List.mem_cons.mp h with h1 | h1
    · obtain ⟨rfl, rfl⟩ := Prod.mk.injEq .. ▸ h1
      simp [lookupVal]
    · have hk : k ≠ k1 := by
        rintro rfl
        exact absurd (hasKey_of_mem h1) (by simp [hn.1])
      simp only [lookupVal, if_neg hk]
      exact ih hn.2 h1

theorem wfEntries_mem {es : List (String × Yaml)} {k : String} {v : Yaml}
    (hw : wfEntries es = true) (h : (k, v) ∈ es) : v.wf = true := by
  induction es with
  | nil => simp at h
  | cons e es ih =>
    obtain ⟨k1, v1⟩ := e
    simp only [wfEntries, Bool.and_eq_true] at hw
    rcases List.mem_cons.mp h with h1 | h1
    · obtain ⟨rfl, rfl⟩ := Prod.mk.injEq .. ▸ h1
      exact hw.1
    · exact ih hw.2 h1

theorem wfList_mem {xs : List Yaml} {x : Yaml}
    (hw : wfList xs = true) (h : x ∈ xs) : x.wf = true := by
  induction xs with
  | nil => simp at h
  | cons y ys ih =>
    simp only [wfList, Bool.and_eq_true] at hw
    rcases List.mem_cons.mp h with h1 | h1
    · exact h1 ▸ hw.1
    · exact ih hw.2 h1

theorem snd_mem_of_mem_enum {α : Type} {l : List α} {e : Nat × α}
    (h : e ∈ l.enum) : e.2 ∈ l :=
  List.getElem?_mem (List.mem_enum_iff_getElem?.mp h)

theorem ddSeq_eq_nil {xs ys : List Yaml} (p : List PathSeg)
    (h1 : ∀ x ∈ xs, dMem x ys = true)
    (h2 : ∀ y ∈ ys, xs.any (fun x => dEq x y) = true) :
    ddSeq p xs ys = [] := by
  simp only [ddSeq, List.append_eq_nil, List.map_eq_nil_iff, List.filter_eq_nil_iff]
  constructor
  · intro e he
    simp [h1 e.2 (snd_mem_of_mem_enum he)]
  · intro e he
    simp [h2 e.2 (snd_mem_of_mem_enum he)]

theorem ddMapCommon_eq_nil {es fs : List (String × Yaml)} (p : List PathSeg)
    (h : ∀ e ∈ es, ddMapFind p e.1 e.2 fs = []) : ddMapCommon p es fs = [] := by
  induction es with
  | nil => simp [ddMapCommon]
  | cons e es ih =>
    obtain ⟨k, v⟩ := e
    simp only [ddMapCommon, List.append_eq_nil]
    exact ⟨h (k, v) (List.mem_cons_self _ _), ih fun e he => h e (List.mem_cons_of_mem _ he)⟩

theorem ddMapFind_lookup {fs : List (String × Yaml)} {k : String} {v' : Yaml}
    (p : List PathSeg) (v : Yaml) (h : lookupVal k fs = some v') :
    ddMapFind p k v fs = ddiff (p ++ [.key k]) v v' := by
  induction fs with
  | nil => simp [lookupVal] at h
  | cons f fs ih =>
    obtain ⟨k1, v1⟩ := f
    by_cases hk : k = k1
    · subst hk
      simp only [lookupVal, if_true, reduceIte, Option.some.injEq] at h
      subst h
      simp [ddMapFind]
    · simp only [lookupVal, if_neg hk] at h
      simp only [ddMapFind, if_neg hk]
      exact ih h

theorem ddMapAdded_eq_nil {es fs : List (String × Yaml)} (p : List PathSeg)
    (h : ∀ e ∈ fs, hasKey e.1 es = true) : ddMapAdded p es fs = [] := by
  simp only [ddMapAdded, List.map_eq_nil_iff, List.filter_eq_nil_iff]
  intro e he
  simp [h e he]

theorem ddiff_refl : ∀ (p : List PathSeg) (a : Yaml), a.wf = true → ddiff p a a = []
  | _, .null, _ => by simp [ddiff, Yaml.typeTag, scalarEq]
  | _, .bool b, _ => by simp [ddiff, Yaml.typeTag, scalarEq]
  | _, .int n, _ => by simp [ddiff, Yaml.typeTag, scalarEq]
  | _, .str s, _ => by simp [ddiff, Yaml.typeTag, scalarEq]
  | p, .seq xs, _ => by
    rw [show ddiff p (.seq xs) (.seq xs) = ddSeq p xs xs from by simp [ddiff]]
    apply ddSeq_eq_nil
    · intro x hx
      rw [dMem_eq_any]
      simp only [List.any_eq_true]
      exact ⟨x, hx, dEq_refl x⟩
    · intro y hy
      simp only [List.any_eq_true]
      exact ⟨y, hy, dEq_refl y⟩
  | p, .map es, h => by
    have hn : keysNodup es = true := by
      simp only [Yaml.wf, Bool.and_eq_true] at h
      exact h.1
    have hw : wfEntries es = true := by
      simp only [Yaml.wf, Bool.and_eq_true] at h
      exact h.2
    rw [show ddiff p (.map es) (.map es) = ddMapCommon p es es ++ ddMapAdded p es es from by
      simp [ddiff]]
    have h1 : ddMapCommon p es es = [] := by
      apply ddMapCommon_eq_nil
      intro e he
      obtain ⟨k, v⟩ := e
      rw [ddMapFind_lookup _ _ (keysNodup_lookup hn he)]
      exact ddiff_refl _ v (wfEntries_mem hw he)
    have h2 : ddMapAdded p es es = [] := by
      apply ddMapAdded_eq_nil
      intro e he
      obtain ⟨k, v⟩ := e
      exact hasKey_of_mem he
    simp [h1, h2]
termination_by _ a => sizeOf a
decreasing_by
  have := sizeOf_snd_lt_of_mem he
  simp only [Yaml.map.sizeOf_spec]
  omega

theorem ddiff_seq_def (p : List PathSeg) (xs ys : List Yaml) :
    ddiff p (.seq xs) (.seq ys) = ddSeq p xs ys := by
  simp [ddiff]

theorem ddiff_map_single (k : String) (a b : Yaml) :
    ddiff [] (.map [(k, a)]) (.map [(k, b)]) = ddiff [PathSeg.key k] a b := by
  rw [show ddiff [] (.map [(k, a)]) (.map [(k, b)])
      = ddMapCommon [] [(k, a)] [(k, b)] ++ ddMapAdded [] [(k, a)] [(k, b)] from by
    simp [ddiff]]
  simp [ddMapCommon, ddMapFind, ddMapAdded, hasKey]

/-! ## Claims -/

/-- C1: for every (well-formed, i.e. duplicate-key-free, as every parsed
Python document is) document `D`, the diff of `D` against itself is empty
at any path, so a check whose current file and baseline file both parse to
`D` logs the no-drift info line and leaves the config `InSync`. -/
theorem C1_compare_reflexive (p : List PathSeg) (D : Yaml) (hD : D.wf = true)
    (cfgs : List (String × String)) (bdir : String) (fs : FS) (filepath name : String)
    (hname : lookupName filepath cfgs = some name)
    (hexists : fs.pathExists (baselinePath bdir name) = true)
    (hcur : fs.load filepath = .ok D)
    (hbase : fs.load (baselinePath bdir name) = .ok D) :
    ddiff p D D = [] ∧
    check_config_drift cfgs bdir fs filepath = .infoNoDrift name ∧
    stateOf (check_config_drift cfgs bdir fs filepath) = .inSync := by
  have hcheck : check_config_drift cfgs bdir fs filepath = .infoNoDrift name := by
    unfold check_config_drift checkBody
    rw [hname]
    simp [hexists, hcur, hbase, ddiff_refl [] D hD]
  exact ⟨ddiff_refl p D hD, hcheck, by rw [hcheck]; rfl⟩

/-- Witness for C1 at the spec's end-to-end scenario 1: document
`{setting1: value1}`, tracked file `app.conf` with logical name
`app_config`. -/
theorem C1_compare_reflexive_witness :
    ddiff [] (.map [("setting1", .str "value1")]) (.map [("setting1", .str "value1")]) = [] ∧
    check_config_drift [("app.conf", "app_config")] "baseline"
      (FS.mk (fun _ => true) (fun _ => LoadResult.ok (.map [("setting1", .str "value1")])))
      "app.conf"
      = .infoNoDrift "app_config" ∧
    stateOf (check_config_drift [("app.conf", "app_config")] "baseline"
      (FS.mk (fun _ => true) (fun _ => LoadResult.ok (.map [("setting1", .str "value1")])))
      "app.conf")
      = .inSync :=
  C1_compare_reflexive [] (.map [("setting1", .str "value1")])
    (by simp [Yaml.wf, wfEntries, keysNodup, hasKey])
    [("app.conf", "app_config")] "baseline" _ "app.conf" "app_config"
    (by simp [lookupName]) rfl rfl rfl

/-- C2 (amended): comparing `{k: S}` with `{k: S'}` for a permutation `S'`
of `S` yields an empty diff, and adding or removing an element with no
deeply-equal copy already in the list yields a nonempty diff; but
duplicating an element that is already present yields an empty diff,
because `deepdiff` with `ignore_order=True` and its default
`report_repetition=False` ignores multiplicity. -/
theorem C2_order_insensitive (k : String) (S : List Yaml) :
    (∀ Sp : List Yaml, Sp.Perm S →
      ddiff [] (.map [(k, .seq S)]) (.map [(k, .seq Sp)]) = []) ∧
    (∀ x : Yaml, S.any (fun s => dEq s x) = false →
      ddiff [] (.map [(k, .seq S)]) (.map [(k, .seq (x :: S))]) ≠ []) ∧
    (∀ x : Yaml, dMem x S = false →
      ddiff [] (.map [(k, .seq (x :: S))]) (.map [(k, .seq S)]) ≠ []) ∧
    (∀ x : Yaml, x ∈ S →
      ddiff [] (.map [(k, .seq S)]) (.map [(k, .seq (x :: S))]) = []) := by
  refine ⟨fun Sp hp => ?_, fun x hx => ?_, fun x hx => ?_, fun x hx => ?_⟩
  · rw [ddiff_map_single, ddiff_seq_def]
    apply ddSeq_eq_nil
    · intro y hy
      rw [dMem_eq_any]
      simp only [List.any_eq_true]
      exact ⟨y, hp.mem_iff.mpr hy, dEq_refl y⟩
    · intro y hy
      simp only [List.any_eq_true]
      exact ⟨y, hp.mem_iff.mp hy, dEq_refl y⟩
  · rw [ddiff_map_single, ddiff_seq_def]
    intro hcontra
    rcases List.append_eq_nil.mp hcontra with ⟨_, hadd⟩
    rw [List.map_eq_nil_iff, List.filter_eq_nil_iff] at hadd
    refine hadd (0, x) ?_ (by simp [hx])
    exact List.mem_enum_iff_getElem?.mpr (by simp)
  · rw [ddiff_map_single, ddiff_seq_def]
    intro hcontra
    rcases List.append_eq_nil.mp hcontra with ⟨hrem, _⟩
    rw [List.map_eq_nil_iff, List.filter_eq_nil_iff] at hrem
    refine hrem (0, x) ?_ (by simp [hx])
    exact List.mem_enum_iff_getElem?.mpr (by simp)
  · rw [ddiff_map_single, ddiff_seq_def]
    apply ddSeq_eq_nil
    · intro y hy
      rw [dMem_eq_any]
      simp only [List.any_eq_true]
      exact ⟨y, List.mem_cons_of_mem _ hy, dEq_refl y⟩
    · intro y hy
      simp only [List.any_eq_true]
      rcases List.mem_cons.mp hy with h1 | h1
      · exact ⟨x, hx, h1 ▸ dEq_refl x⟩
      · exact ⟨y, h1, dEq_refl y⟩

/-- Counterexample to C2 as stated: duplicating the element `1` of the list
at key `k` — baseline `{k: [1]}`, current `{k: [1, 1]}` — yields an empty
diff, so the duplication is not reported as drift, contrary to the claim
that duplicating an element produces a diff. -/
theorem C2_counterexample :
    ddiff [] (.map [("k", .seq [.int 1])]) (.map [("k", .seq [.int 1, .int 1])]) = [] := by
  rw [ddiff_map_single, ddiff_seq_def]
  simp [ddSeq, List.enum, List.enumFrom, dMem, dEq]

/-- Witness for C2 (amended): reordering `[1, 2]` to `[2, 1]` is silent;
adding `3` to `[1]` and removing `3` from `[3, 1]` are reported;
duplicating `1` in `[1, 2]` is silent. -/
theorem C2_order_insensitive_witness :
    ddiff [] (.map [("k", .seq [.int 1, .int 2])]) (.map [("k", .seq [.int 2, .int 1])]) = [] ∧
    ddiff [] (.map [("k", .seq [.int 1])]) (.map [("k", .seq [.int 3, .int 1])]) ≠ [] ∧
    ddiff [] (.map [("k", .seq [.int 3, .int 1])]) (.map [("k", .seq [.int 1])]) ≠ [] ∧
    ddiff [] (.map [("k", .seq [.int 1, .int 2])])
      (.map [("k", .seq [.int 1, .int 1, .int 2])]) = [] :=
  ⟨(C2_order_insensitive "k" [.int 1, .int 2]).1 [.int 2, .int 1]
      (List.Perm.swap (Yaml.int 1) (Yaml.int 2) []),
   (C2_order_insensitive "k" [.int 1]).2.1 (.int 3) (by simp [dEq]),
   (C2_order_insensitive "k" [.int 1]).2.2.1 (.int 3) (by simp [dMem, dEq]),
   (C2_order_insensitive "k" [.int 1, .int 2]).2.2.2 (.int 1) (by simp)⟩

theorem run_events_cons (cfgs : List (String × String)) (bdir : String) (fs : FS)
    (e : FsEvent) (evs : List FsEvent) :
    run_events cfgs bdir fs (e :: evs) =
      (on_modified cfgs bdir fs e).toList ++ run_events cfgs bdir fs evs := by
  cases h : on_modified cfgs bdir fs e <;>
    simp [run_events, List.filterMap_cons, h]

/-- C3 (amended): an empty current file loads as the explicit null document
(`yaml.safe_load` returns `None`), and comparing any dictionary baseline
against it does not crash: the check completes with a drift warning whose
diff is a single root-level type-change entry (dict versus `None`), not
`Removed` entries for the baseline keys. -/
theorem C3_empty_file_tolerated (cfgs : List (String × String)) (bdir : String)
    (fs : FS) (filepath name : String) (es : List (String × Yaml))
    (hname : lookupName filepath cfgs = some name)
    (hexists : fs.pathExists (baselinePath bdir name) = true)
    (hcur : fs.load filepath = loadEmptyFile)
    (hbase : fs.load (baselinePath bdir name) = .ok (.map es)) :
    check_config_drift cfgs bdir fs filepath =
      .warnDrift name filepath [⟨[], .typeChanged, some (.map es), some .null⟩] ∧
    stateOf (check_config_drift cfgs bdir fs filepath) =
      .drifted [⟨[], .typeChanged, some (.map es), some .null⟩] := by
  have hdiff : ddiff [] (.map es) .null = [⟨[], .typeChanged, some (.map es), some .null⟩] := by
    simp [ddiff, Yaml.typeTag]
  have hcheck : check_config_drift cfgs bdir fs filepath =
      .warnDrift name filepath [⟨[], .typeChanged, some (.map es), some .null⟩] := by
    unfold check_config_drift checkBody
    rw [hname]
    simp only [loadEmptyFile] at hcur
    simp [hexists, hcur, hbase, hdiff]
  exact ⟨hcheck, by rw [hcheck]; rfl⟩

/-- Counterexample to C3 as stated: current file empty (loads as `None`),
baseline `{setting1: value1}`. The claim predicts `Removed` entries for
the baseline keys; the check instead reports one root-level type-change
entry (and no removed-key entry). -/
theorem C3_counterexample :
    check_config_drift [("app.conf", "app_config")] "baseline"
      (FS.mk (fun _ => true)
        (fun p => if p = "app.conf" then loadEmptyFile
                  else .ok (.map [("setting1", .str "value1")])))
      "app.conf"
      = .warnDrift "app_config" "app.conf"
          [⟨[], .typeChanged, some (.map [("setting1", .str "value1")]), some .null⟩] ∧
    ∀ entry ∈ (check_config_drift [("app.conf", "app_config")] "baseline"
      (FS.mk (fun _ => true)
        (fun p => if p = "app.conf" then loadEmptyFile
                  else .ok (.map [("setting1", .str "value1")])))
      "app.conf").diffOf, entry.kind ≠ DiffKind.dictItemRemoved := by
  have hdiff : ddiff [] (.map [("setting1", .str "value1")]) .null =
      [⟨[], .typeChanged, some (.map [("setting1", .str "value1")]), some .null⟩] := by
    simp [ddiff, Yaml.typeTag]
  have hcheck : check_config_drift [("app.conf", "app_config")] "baseline"
      (FS.mk (fun _ => true)
        (fun p => if p = "app.conf" then loadEmptyFile
                  else .ok (.map [("setting1", .str "value1")])))
      "app.conf"
      = .warnDrift "app_config" "app.conf"
          [⟨[], .typeChanged, some (.map [("setting1", .str "value1")]), some .null⟩] := by
    unfold check_config_drift checkBody
    simp [lookupName, baselinePath, loadEmptyFile, hdiff]
  refine ⟨hcheck, ?_⟩
  rw [hcheck]
  intro entry he
  simp only [LogEvent.diffOf, List.mem_singleton] at he
  subst he
  simp

/-- Witness for C3 (amended) at the same input as the counterexample. -/
theorem C3_empty_file_tolerated_witness :
    check_config_drift [("app.conf", "app_config")] "baseline"
      (FS.mk (fun _ => true)
        (fun p => if p = "app.conf" then loadEmptyFile
                  else .ok (.map [("db_host", .str "localhost")])))
      "app.conf"
      = .warnDrift "app_config" "app.conf"
          [⟨[], .typeChanged, some (.map [("db_host", .str "localhost")]), some .null⟩] ∧
    stateOf (check_config_drift [("app.conf", "app_config")] "baseline"
      (FS.mk (fun _ => true)
        (fun p => if p = "app.conf" then loadEmptyFile
                  else .ok (.map [("db_host", .str "localhost")])))
      "app.conf")
      = .drifted [⟨[], .typeChanged, some (.map [("db_host", .str "localhost")]), some .null⟩] :=
  C3_empty_file_tolerated [("app.conf", "app_config")] "baseline" _ "app.conf" "app_config"
    [("db_host", .str "localhost")]
    (by simp [lookupName]) rfl (by simp [baselinePath]) (by simp [baselinePath])

/-- C4: when the tracked config's baseline file
`<baselineDir>/<logicalName>.yaml` does not exist, the check logs the
baseline-missing message at error severity, leaves the config in the
`Error(BaselineMissing)` state, raises no exception (the `try` body
returns normally before any load), and the event loop goes on processing
the remaining notifications. -/
theorem C4_missing_baseline (cfgs : List (String × String)) (bdir : String)
    (fs : FS) (filepath name : String)
    (hname : lookupName filepath cfgs = some name)
    (hmiss : fs.pathExists (baselinePath bdir name) = false) :
    check_config_drift cfgs bdir fs filepath =
      .errorBaselineMissing (baselinePath bdir name) ∧
    (check_config_drift cfgs bdir fs filepath).severity = .error ∧
    stateOf (check_config_drift cfgs bdir fs filepath) = .errorState .baselineMissing ∧
    checkBody cfgs bdir fs filepath = .ok (.errorBaselineMissing (baselinePath bdir name)) ∧
    (∀ (e : FsEvent) (evs : List FsEvent),
      run_events cfgs bdir fs (e :: evs) =
        (on_modified cfgs bdir fs e).toList ++ run_events cfgs bdir fs evs) := by
  have hbody : checkBody cfgs bdir fs filepath =
      .ok (.errorBaselineMissing (baselinePath bdir name)) := by
    unfold checkBody
    rw [hname]
    simp [hmiss]
  have hcheck : check_config_drift cfgs bdir fs filepath =
      .errorBaselineMissing (baselinePath bdir name) := by
    unfold check_config_drift
    rw [hbody]
  exact ⟨hcheck, by rw [hcheck]; rfl, by rw [hcheck]; rfl, hbody,
    fun e evs => run_events_cons cfgs bdir fs e evs⟩

/-- Witness for C4: tracked file `app.conf` (logical name `app_config`),
baseline directory `baseline`, no file exists. -/
theorem C4_missing_baseline_witness :
    check_config_drift [("app.conf", "app_config")] "baseline"
      (FS.mk (fun _ => false) (fun _ => .ioError)) "app.conf"
      = .errorBaselineMissing "baseline/app_config.yaml" ∧
    (check_config_drift [("app.conf", "app_config")] "baseline"
      (FS.mk (fun _ => false) (fun _ => .ioError)) "app.conf").severity = .error ∧
    stateOf (check_config_drift [("app.conf", "app_config")] "baseline"
      (FS.mk (fun _ => false) (fun _ => .ioError)) "app.conf")
      = .errorState .baselineMissing ∧
    checkBody [("app.conf", "app_config")] "baseline"
      (FS.mk (fun _ => false) (fun _ => .ioError)) "app.conf"
      = .ok (.errorBaselineMissing "baseline/app_config.yaml") ∧
    (∀ (e : FsEvent) (evs : List FsEvent),
      run_events [("app.conf", "app_config")] "baseline"
          (FS.mk (fun _ => false) (fun _ => .ioError)) (e :: evs) =
        (on_modified [("app.conf", "app_config")] "baseline"
          (FS.mk (fun _ => false) (fun _ => .ioError)) e).toList ++
        run_events [("app.conf", "app_config")] "baseline"
          (FS.mk (fun _ => false) (fun _ => .ioError)) evs) := by
  have h := C4_missing_baseline [("app.conf", "app_config")] "baseline"
    (FS.mk (fun _ => false) (fun _ => .ioError)) "app.conf" "app_config"
    (by simp [lookupName]) rfl
  simpa [baselinePath] using h

/-- C5: a parse failure of either document (or an I/O failure reading one)
raises inside the `try` body and is caught by the `except Exception`
handler: the check returns normally with an error-severity record, the
config's state is `Error` carrying the parse/I/O failure as its reason,
and the event loop keeps processing subsequent notifications — no
per-check failure escapes. -/
theorem C5_parse_failure_contained (cfgs : List (String × String)) (bdir : String)
    (fs : FS) (filepath name : String)
    (hname : lookupName filepath cfgs = some name)
    (hexists : fs.pathExists (baselinePath bdir name) = true) :
    (fs.load filepath = .parseError →
      check_config_drift cfgs bdir fs filepath = .errorException filepath .parseError) ∧
    (fs.load filepath = .ioError →
      check_config_drift cfgs bdir fs filepath = .errorException filepath .ioError) ∧
    (∀ v, fs.load filepath = .ok v →
      fs.load (baselinePath bdir name) = .parseError →
      check_config_drift cfgs bdir fs filepath = .errorException filepath .parseError) ∧
    (∀ v, fs.load filepath = .ok v →
      fs.load (baselinePath bdir name) = .ioError →
      check_config_drift cfgs bdir fs filepath = .errorException filepath .ioError) ∧
    (∀ e : PyErr, (LogEvent.errorException filepath e).severity = .error ∧
      stateOf (.errorException filepath e) = .errorState (.exception e)) ∧
    (∀ (e : FsEvent) (evs : List FsEvent),
      run_events cfgs bdir fs (e :: evs) =
        (on_modified cfgs bdir fs e).toList ++ run_events cfgs bdir fs evs) := by
  refine ⟨fun hcur => ?_, fun hcur => ?_, fun v hcur hbase => ?_, fun v hcur hbase => ?_,
    fun e => ⟨rfl, rfl⟩, fun e evs => run_events_cons cfgs bdir fs e evs⟩
  all_goals
    unfold check_config_drift checkBody
    rw [hname]
    simp [hexists, hcur]
  all_goals simp [hbase]

/-- Witness for C5: a current file that fails to parse, and a well-formed
current file with a baseline that fails to read. -/
theorem C5_parse_failure_contained_witness :
    check_config_drift [("app.conf", "app_config")] "baseline"
      (FS.mk (fun _ => true) (fun _ => .parseError)) "app.conf"
      = .errorException "app.conf" .parseError ∧
    check_config_drift [("app.conf", "app_config")] "baseline"
      (FS.mk (fun _ => true)
        (fun p => if p = "app.conf" then .ok .null else .ioError)) "app.conf"
      = .errorException "app.conf" .ioError ∧
    (LogEvent.errorException "app.conf" .parseError).severity = .error ∧
    stateOf (.errorException "app.conf" .parseError)
      = .errorState (.exception .parseError) :=
  have h1 := C5_parse_failure_contained [("app.conf", "app_config")] "baseline"
    (FS.mk (fun _ => true) (fun _ => .parseError)) "app.conf" "app_config"
    (by simp [lookupName]) rfl
  have h2 := C5_parse_failure_contained [("app.conf", "app_config")] "baseline"
    (FS.mk (fun _ => true)
      (fun p => if p = "app.conf" then .ok .null else .ioError)) "app.conf" "app_config"
    (by simp [lookupName]) rfl
  ⟨h1.1 rfl,
   h2.2.2.2.1 .null (by simp) (by simp [baselinePath]),
   (h1.2.2.2.2.1 PyErr.parseError).1,
   (h1.2.2.2.2.1 PyErr.parseError).2⟩

/-- C6: if the config-file and config-name lists differ in length, or the
baseline directory does not exist, or some tracked file is missing,
`validate_input` raises, `main` logs the cause and exits with status 1
(non-zero) before any watching starts; when validation passes, the watch
loop runs over the delivered notifications and the interrupt-driven
shutdown exits with status 0. -/
theorem C6_fatal_startup_validation (files names : List String) (bdir : String)
    (isdir isfile : String → Bool) (abspath dirname : String → String)
    (fs : FS) (events : List FsEvent) :
    ((files.length ≠ names.length ∨ isdir bdir = false ∨ ∃ f ∈ files, isfile f = false) →
      ∃ cause, main files names bdir isdir isfile abspath dirname fs events =
        .exitedEarly 1 cause) ∧
    (validate_input files names bdir isdir isfile = .ok () →
      main files names bdir isdir isfile abspath dirname fs events =
        .ran (dedupDirs (files.map (fun f => dirname (abspath f))))
          (run_events (files.zip names) bdir fs events) 0) := by
  constructor
  · intro h
    have hv : ∃ cause, validate_input files names bdir isdir isfile = .error cause := by
      unfold validate_input
      by_cases h1 : files.length = names.length
      · rcases h with h | h | h
        · exact absurd h1 h
        · simp [h1, h]
        · by_cases h2 : isdir bdir
          · obtain ⟨f, hf, hff⟩ := h
            have : (files.find? (fun f => !(isfile f))).isSome := by
              rw [List.find?_isSome]
              exact ⟨f, hf, by simp [hff]⟩
            obtain ⟨g, hg⟩ := Option.isSome_iff_exists.mp this
            simp [h1, h2, hg]
          · simp [h1, h2]
      · simp [h1]
    obtain ⟨cause, hc⟩ := hv
    exact ⟨cause, by unfold main; rw [hc]⟩
  · intro h
    unfold main
    rw [h]

/-- Witness for C6: a length mismatch exits with status 1; a valid setup
(directory and files present) reaches the run loop and exits 0. -/
theorem C6_fatal_startup_validation_witness :
    (∃ cause, main ["app.conf"] [] "baseline" (fun _ => true) (fun _ => true)
      (fun s => s) (fun s => s) (FS.mk (fun _ => true) (fun _ => .ok .null)) [] =
        .exitedEarly 1 cause) ∧
    main ["app.conf"] ["app_config"] "baseline" (fun _ => true) (fun _ => true)
      (fun s => s) (fun s => s) (FS.mk (fun _ => true) (fun _ => .ok .null)) [] =
        .ran (dedupDirs ["app.conf"])
          (run_events [("app.conf", "app_config")] "baseline"
            (FS.mk (fun _ => true) (fun _ => .ok .null)) []) 0 :=
  ⟨(C6_fatal_startup_validation ["app.conf"] [] "baseline" (fun _ => true) (fun _ => true)
      (fun s => s) (fun s => s) (FS.mk (fun _ => true) (fun _ => .ok .null)) []).1
      (Or.inl (by simp)),
   (C6_fatal_startup_validation ["app.conf"] ["app_config"] "baseline" (fun _ => true)
      (fun _ => true) (fun s => s) (fun s => s)
      (FS.mk (fun _ => true) (fun _ => .ok .null)) []).2
      (by simp [validate_input])⟩

/-- C7 (amended): there is no coalescing of notifications: every qualifying
modification event (non-directory, tracked path) triggers its own drift
check, one comparison per raw event, even for repeated events for the same
path in one batch; the interval parameter only sets the idle loop's sleep
period and plays no part in event handling. -/
theorem C7_no_debounce (cfgs : List (String × String)) (bdir : String) (fs : FS)
    (events : List FsEvent) :
    run_events cfgs bdir fs events =
      (events.filter (fun e => !e.is_directory && hasConfigKey e.src_path cfgs)).map
        (fun e => check_config_drift cfgs bdir fs e.src_path) := by
  induction events with
  | nil => rfl
  | cons e evs ih =>
    by_cases h1 : e.is_directory
    · simp [run_events, List.filterMap_cons, on_modified, h1, List.filter_cons,
        run_events] at ih ⊢
      exact ih
    · by_cases h2 : hasConfigKey e.src_path cfgs
      · simp [run_events, List.filterMap_cons, on_modified, h1, h2, List.filter_cons] at ih ⊢
        exact ih
      · simp [run_events, List.filterMap_cons, on_modified, h1, h2, List.filter_cons] at ih ⊢
        exact ih

/-- Counterexample to C7 as stated: two modification notifications for the
same tracked path in one batch produce two drift checks (two emitted log
records), not at most one. -/
theorem C7_counterexample :
    (run_events [("app.conf", "app_config")] "baseline"
      (FS.mk (fun _ => true) (fun _ => .ok .null))
      [⟨false, "app.conf"⟩, ⟨false, "app.conf"⟩]).length = 2 := by
  simp [run_events, List.filterMap_cons, on_modified, hasConfigKey]

/-- C8: a notification for a directory, or for a path that is not a key of
the tracked-config dictionary, makes `on_modified` return without running
a check (no log record, no state change); a non-directory notification for
a tracked path runs exactly one check. -/
theorem C8_event_filtering (cfgs : List (String × String)) (bdir : String)
    (fs : FS) (e : FsEvent) :
    (e.is_directory = true → on_modified cfgs bdir fs e = none) ∧
    (hasConfigKey e.src_path cfgs = false → on_modified cfgs bdir fs e = none) ∧
    (e.is_directory = false → hasConfigKey e.src_path cfgs = true →
      on_modified cfgs bdir fs e = some (check_config_drift cfgs bdir fs e.src_path)) := by
  refine ⟨fun h => ?_, fun h => ?_, fun h1 h2 => ?_⟩
  · simp [on_modified, h]
  · by_cases h1 : e.is_directory <;> simp [on_modified, h, h1]
  · simp [on_modified, h1, h2]

/-- Witness for C8: a directory event, an untracked path, and a tracked
modification. -/
theorem C8_event_filtering_witness :
    on_modified [("app.conf", "app_config")] "baseline"
      (FS.mk (fun _ => true) (fun _ => .ok .null)) ⟨true, "app.conf"⟩ = none ∧
    on_modified [("app.conf", "app_config")] "baseline"
      (FS.mk (fun _ => true) (fun _ => .ok .null)) ⟨false, "other.conf"⟩ = none ∧
    on_modified [("app.conf", "app_config")] "baseline"
      (FS.mk (fun _ => true) (fun _ => .ok .null)) ⟨false, "app.conf"⟩
      = some (check_config_drift [("app.conf", "app_config")] "baseline"
          (FS.mk (fun _ => true) (fun _ => .ok .null)) "app.conf") :=
  ⟨(C8_event_filtering [("app.conf", "app_config")] "baseline"
      (FS.mk (fun _ => true) (fun _ => .ok .null)) ⟨true, "app.conf"⟩).1 rfl,
   (C8_event_filtering [("app.conf", "app_config")] "baseline"
      (FS.mk (fun _ => true) (fun _ => .ok .null)) ⟨false, "other.conf"⟩).2.1
      (by simp [hasConfigKey]),
   (C8_event_filtering [("app.conf", "app_config")] "baseline"
      (FS.mk (fun _ => true) (fun _ => .ok .null)) ⟨false, "app.conf"⟩).2.2 rfl
      (by simp [hasConfigKey])⟩

/-- C9: the record each completed check emits is at info severity exactly
when the resulting state is `InSync`, at warning severity exactly when the
state is `Drifted` (and the warning carries the full computed diff), and
at error severity exactly when the state is an `Error` state; the reporter
is a total function, so it never throws away the event. -/
theorem C9_severity_mapping (cfgs : List (String × String)) (bdir : String)
    (fs : FS) (filepath : String) :
    ((check_config_drift cfgs bdir fs filepath).severity = .info ↔
      stateOf (check_config_drift cfgs bdir fs filepath) = .inSync) ∧
    ((check_config_drift cfgs bdir fs filepath).severity = .warning ↔
      ∃ d, stateOf (check_config_drift cfgs bdir fs filepath) = .drifted d) ∧
    ((check_config_drift cfgs bdir fs filepath).severity = .error ↔
      ∃ r, stateOf (check_config_drift cfgs bdir fs filepath) = .errorState r) ∧
    (∀ n fp d, check_config_drift cfgs bdir fs filepath = .warnDrift n fp d →
      stateOf (check_config_drift cfgs bdir fs filepath) = .drifted d ∧
      (check_config_drift cfgs bdir fs filepath).diffOf = d) := by
  generalize check_config_drift cfgs bdir fs filepath = ev
  refine ⟨?_, ?_, ?_, ?_⟩
  · cases ev <;> simp [LogEvent.severity, stateOf]
  · cases ev <;> simp [LogEvent.severity, stateOf]
  · cases ev <;> simp [LogEvent.severity, stateOf]
  · rintro n fp d rfl
    exact ⟨rfl, rfl⟩

/-- Witness for C9 at a drifted check (baseline `{setting1: value1}`,
current `{setting1: value2}`). -/
theorem C9_severity_mapping_witness :
    ((check_config_drift [("app.conf", "app_config")] "baseline"
      (FS.mk (fun _ => true)
        (fun p => if p = "app.conf" then .ok (.map [("setting1", .str "value2")])
                  else .ok (.map [("setting1", .str "value1")])))
      "app.conf").severity = .info ↔
      stateOf (check_config_drift [("app.conf", "app_config")] "baseline"
      (FS.mk (fun _ => true)
        (fun p => if p = "app.conf" then .ok (.map [("setting1", .str "value2")])
                  else .ok (.map [("setting1", .str "value1")])))
      "app.conf") = .inSync) ∧
    ((check_config_drift [("app.conf", "app_config")] "baseline"
      (FS.mk (fun _ => true)
        (fun p => if p = "app.conf" then .ok (.map [("setting1", .str "value2")])
                  else .ok (.map [("setting1", .str "value1")])))
      "app.conf").severity = .warning ↔
      ∃ d, stateOf (check_config_drift [("app.conf", "app_config")] "baseline"
      (FS.mk (fun _ => true)
        (fun p => if p = "app.conf" then .ok (.map [("setting1", .str "value2")])
                  else .ok (.map [("setting1", .str "value1")])))
      "app.conf") = .drifted d) ∧
    ((check_config_drift [("app.conf", "app_config")] "baseline"
      (FS.mk (fun _ => true)
        (fun p => if p = "app.conf" then .ok (.map [("setting1", .str "value2")])
                  else .ok (.map [("setting1", .str "value1")])))
      "app.conf").severity = .error ↔
      ∃ r, stateOf (check_config_drift [("app.conf", "app_config")] "baseline"
      (FS.mk (fun _ => true)
        (fun p => if p = "app.conf" then .ok (.map [("setting1", .str "value2")])
                  else .ok (.map [("setting1", .str "value1")])))
      "app.conf") = .errorState r) ∧
    (∀ n fp d, check_config_drift [("app.conf", "app_config")] "baseline"
      (FS.mk (fun _ => true)
        (fun p => if p = "app.conf" then .ok (.map [("setting1", .str "value2")])
                  else .ok (.map [("setting1", .str "value1")])))
      "app.conf" = .warnDrift n fp d →
      stateOf (check_config_drift [("app.conf", "app_config")] "baseline"
      (FS.mk (fun _ => true)
        (fun p => if p = "app.conf" then .ok (.map [("setting1", .str "value2")])
                  else .ok (.map [("setting1", .str "value1")])))
      "app.conf") = .drifted d ∧
      (check_config_drift [("app.conf", "app_config")] "baseline"
      (FS.mk (fun _ => true)
        (fun p => if p = "app.conf" then .ok (.map [("setting1", .str "value2")])
                  else .ok (.map [("setting1", .str "value1")])))
      "app.conf").diffOf = d) :=
  C9_severity_mapping [("app.conf", "app_config")] "baseline"
    (FS.mk (fun _ => true)
      (fun p => if p = "app.conf" then .ok (.map [("setting1", .str "value2")])
                else .ok (.map [("setting1", .str "value1")])))
    "app.conf"

/-- C10 (implicit): a drift check runs exactly when the event is not a
directory event and its source path is string-equal to one of the
operator-supplied config-file arguments (the keys of
`dict(zip(config_files, config_names))`); no normalization is applied, so
any event path that differs as a string from every tracked spelling —
however it relates to them after path resolution — triggers no check. -/
theorem C10_exact_string_matching (cfgs : List (String × String)) (bdir : String)
    (fs : FS) (e : FsEvent) :
    ((on_modified cfgs bdir fs e).isSome =
      (!e.is_directory && hasConfigKey e.src_path cfgs)) ∧
    (hasConfigKey e.src_path cfgs = true ↔ ∃ n, (e.src_path, n) ∈ cfgs) ∧
    (∀ files names : List String, files.length = names.length →
      (hasConfigKey e.src_path (files.zip names) = true ↔ e.src_path ∈ files)) ∧
    ((∀ kv ∈ cfgs, e.src_path ≠ kv.1) → on_modified cfgs bdir fs e = none) := by
  refine ⟨?_, ?_, ?_, ?_⟩
  · by_cases h1 : e.is_directory <;> by_cases h2 : hasConfigKey e.src_path cfgs <;>
      simp [on_modified, h1, h2]
  · simp only [hasConfigKey, List.any_eq_true]
    constructor
    · rintro ⟨⟨k, n⟩, hm, hk⟩
      simp only [beq_iff_eq] at hk
      exact ⟨n, hk ▸ hm⟩
    · rintro ⟨n, hm⟩
      exact ⟨(e.src_path, n), hm, by simp⟩
  · intro files names hlen
    simp only [hasConfigKey, List.any_eq_true]
    constructor
    · rintro ⟨⟨k, n⟩, hm, hk⟩
      simp only [beq_iff_eq] at hk
      subst hk
      exact (List.of_mem_zip hm).1
    · intro hm
      rw [List.mem_iff_getElem] at hm
      obtain ⟨i, hi, hp⟩ := hm
      have hiz : i < (files.zip names).length := by
        rw [List.length_zip]
        omega
      refine ⟨(files.zip names)[i], List.getElem_mem hiz, ?_⟩
      simp [List.getElem_zip, hp]
  · intro h
    have hk : hasConfigKey e.src_path cfgs = false := by
      rw [Bool.eq_false_iff]
      intro hc
      simp only [hasConfigKey, List.any_eq_true] at hc
      obtain ⟨kv, hm, hkv⟩ := hc
      simp only [beq_iff_eq] at hkv
      exact h kv hm hkv.symm
    by_cases h1 : e.is_directory <;> simp [on_modified, h1, hk]

/-- Witness for C10: the file is tracked under the relative spelling
`app.conf`, and an event reporting the absolute spelling
`/watched/app.conf` — a different string for the same file — triggers no
check; with equal-length argument lists the tracked keys are exactly the
`--config-files` strings. -/
theorem C10_exact_string_matching_witness :
    on_modified [("app.conf", "app_config")] "baseline"
      (FS.mk (fun _ => true) (fun _ => .ok .null)) ⟨false, "/watched/app.conf"⟩ = none ∧
    (hasConfigKey "/watched/app.conf" (["app.conf"].zip ["app_config"]) = true ↔
      "/watched/app.conf" ∈ ["app.conf"]) :=
  ⟨(C10_exact_string_matching [("app.conf", "app_config")] "baseline"
      (FS.mk (fun _ => true) (fun _ => .ok .null)) ⟨false, "/watched/app.conf"⟩).2.2.2
      (by decide),
   (C10_exact_string_matching [("app.conf", "app_config")] "baseline"
      (FS.mk (fun _ => true) (fun _ => .ok .null)) ⟨false, "/watched/app.conf"⟩).2.2.1
      ["app.conf"] ["app_config"] rfl⟩

end ConfigDrift
